import Mathlib

set_option maxRecDepth 40000

/-
Verification of the Pergaminos digitization backend (src/backend/server.py).

The development shallowly embeds the asynchronous AI-processing pipeline of the
backend: the resilient response parsing step of process_document_with_ai, the
single-document pipeline itself, the batch reordering job
process_document_reordering, the client-driven change job
process_document_changes, the task-status poll endpoints, and the document
listing sort of get_project_documents.

Conventions of the embedding:
  - Python strings are `List Char`.
  - JSON values (the results of Python's json.loads, and the dynamic values
    a decoded plan carries) are the inductive `Json` below.
  - MongoDB collections are Lean lists of records; update_one updates the
    first matching record, find_one returns the first matching record.
  - Background jobs are functions from their inputs to the final database
    state together with the ordered list of task-record states written over
    the job's lifetime (one list entry per insert/update of the task record,
    holding the merged record visible after that write).
  - Exceptions are `Except` values; the catch-all boundary of each background
    job is the branch that turns an `Except.error` into a failed task record.
  - datetimes are integers (epoch instants).
-/

/-- Strings of the embedded program. -/
abbrev Str := List Char

/-- The opening curly brace character, written via its code point. -/
def lbrace : Char := Char.ofNat 123

/-- The closing curly brace character, written via its code point. -/
def rbrace : Char := Char.ofNat 125

/-- JSON values, as produced by Python's json.loads. Numbers are restricted
to integers: every numeral the pipeline's claims exercise is an integer, and
floating point is outside the scope of this embedding. -/
inductive Json where
  | null
  | bool (b : Bool)
  | num (n : Int)
  | str (s : Str)
  | arr (xs : List Json)
  | obj (kvs : List (Str × Json))

/-- First value bound to a key in an object's field list (fields built by
`consField` have unique keys, mirroring a Python dict). -/
def lookupField : List (Str × Json) → Str → Option Json
  | [], _ => none
  | (k, v) :: rest, key => if k = key then some v else lookupField rest key

/-- Remove the first binding of a key from a field list. -/
def eraseField : List (Str × Json) → Str → List (Str × Json)
  | [], _ => []
  | (k, v) :: rest, key => if k = key then rest else (k, v) :: eraseField rest key

/-- Prepend a parsed object member to the members parsed after it, with
Python-dict semantics: a duplicate key keeps its first position but takes the
later value. -/
def consField (k : Str) (v : Json) (kvs : List (Str × Json)) : List (Str × Json) :=
  match lookupField kvs k with
  | some v2 => (k, v2) :: eraseField kvs k
  | none => (k, v) :: kvs

/-- JSON whitespace as accepted by Python's json.loads. -/
def skipWs : Str → Str
  | [] => []
  | c :: cs =>
    if c = ' ' ∨ c = '\t' ∨ c = '\n' ∨ c = '\r' then skipWs cs else c :: cs

/-- Numeric value of a digit string. -/
def digitsToNat (ds : Str) : Nat :=
  ds.foldl (fun a c => a * 10 + (c.toNat - 48)) 0

/-- Parse a JSON integer numeral (optional minus sign, no leading zeros).
A numeral continued by a fraction or exponent is a float, which this
embedding does not model: such input makes the decode fail. -/
def parseNum (s : Str) : Option (Json × Str) :=
  let neg : Bool := match s with
    | '-' :: _ => true
    | _ => false
  let s1 : Str := if neg then s.drop 1 else s
  let ds := s1.takeWhile Char.isDigit
  let rest := s1.drop ds.length
  if ds.isEmpty then none
  else if 1 < ds.length ∧ ds.headD ' ' = '0' then none
  else
    let n : Int := if neg then -(digitsToNat ds : Int) else (digitsToNat ds : Int)
    match rest with
    | c :: _ => if c = '.' ∨ c = 'e' ∨ c = 'E' then none else some (Json.num n, rest)
    | [] => some (Json.num n, rest)

/-- Parse the body of a JSON string literal, positioned just after the opening
quote; returns the decoded contents and the input after the closing quote.
The common escapes are decoded; the rarer \b, \f and \uXXXX escapes are not
modelled and make the decode fail. -/
def parseStrBody : Nat → Str → Option (Str × Str)
  | 0, _ => none
  | _ + 1, [] => none
  | f + 1, c :: cs =>
    if c = '"' then some ([], cs)
    else if c = '\\' then
      match cs with
      | [] => none
      | e :: cs2 =>
        let d : Option Char :=
          if e = '"' then some '"'
          else if e = '\\' then some '\\'
          else if e = '/' then some '/'
          else if e = 'n' then some '\n'
          else if e = 't' then some '\t'
          else if e = 'r' then some '\r'
          else none
        match d with
        | some dc =>
          match parseStrBody f cs2 with
          | some (content, rest) => some (dc :: content, rest)
          | none => none
        | none => none
    else
      match parseStrBody f cs with
      | some (content, rest) => some (c :: content, rest)
      | none => none

mutual

/-- Parse one JSON value (fuel-bounded recursive descent). -/
def parseVal : Nat → Str → Option (Json × Str)
  | 0, _ => none
  | f + 1, s =>
    match skipWs s with
    | [] => none
    | c :: cs =>
      if c = lbrace then parseFieldsStart f cs
      else if c = '[' then parseElemsStart f cs
      else if c = '"' then
        match parseStrBody (cs.length + 1) cs with
        | some (content, rest) => some (Json.str content, rest)
        | none => none
      else if c = 't' then
        match cs with
        | 'r' :: 'u' :: 'e' :: rest => some (Json.bool true, rest)
        | _ => none
      else if c = 'f' then
        match cs with
        | 'a' :: 'l' :: 's' :: 'e' :: rest => some (Json.bool false, rest)
        | _ => none
      else if c = 'n' then
        match cs with
        | 'u' :: 'l' :: 'l' :: rest => some (Json.null, rest)
        | _ => none
      else parseNum (c :: cs)

/-- Parse an object body positioned just after the opening brace: either the
immediate closing brace, or a nonempty member list. -/
def parseFieldsStart : Nat → Str → Option (Json × Str)
  | 0, _ => none
  | f + 1, s =>
    match skipWs s with
    | [] => none
    | c :: cs =>
      if c = rbrace then some (Json.obj [], cs)
      else
        match parseMembers f (c :: cs) with
        | some (kvs, rest) => some (Json.obj kvs, rest)
        | none => none

/-- Parse a nonempty comma-separated member list followed by the closing
brace. -/
def parseMembers : Nat → Str → Option (List (Str × Json) × Str)
  | 0, _ => none
  | f + 1, s =>
    match skipWs s with
    | [] => none
    | c :: cs =>
      if c = '"' then
        match parseStrBody (cs.length + 1) cs with
        | none => none
        | some (key, rest1) =>
          match skipWs rest1 with
          | ':' :: rest2 =>
            match parseVal f rest2 with
            | none => none
            | some (v, rest3) =>
              match skipWs rest3 with
              | c2 :: rest4 =>
                if c2 = ',' then
                  match parseMembers f rest4 with
                  | some (kvs, rest5) => some (consField key v kvs, rest5)
                  | none => none
                else if c2 = rbrace then some ([(key, v)], rest4)
                else none
              | [] => none
          | _ => none
      else none

/-- Parse an array body positioned just after the opening bracket: either the
immediate closing bracket, or a nonempty element list. -/
def parseElemsStart : Nat → Str → Option (Json × Str)
  | 0, _ => none
  | f + 1, s =>
    match skipWs s with
    | [] => none
    | c :: cs =>
      if c = ']' then some (Json.arr [], cs)
      else
        match parseElems f (c :: cs) with
        | some (xs, rest) => some (Json.arr xs, rest)
        | none => none

/-- Parse a nonempty comma-separated element list followed by the closing
bracket. -/
def parseElems : Nat → Str → Option (List Json × Str)
  | 0, _ => none
  | f + 1, s =>
    match parseVal f s with
    | none => none
    | some (j, rest) =>
      match skipWs rest with
      | c :: rest2 =>
        if c = ',' then
          match parseElems f rest2 with
          | some (xs, rest3) => some (j :: xs, rest3)
          | none => none
        else if c = ']' then some ([j], rest2)
        else none
      | [] => none

end

/-- Model of Python's json.loads (standard library, external to this
repository): decode a complete JSON value, requiring the whole input to be
consumed up to trailing whitespace. -/
def jsonDecode (s : Str) : Option Json :=
  match parseVal (4 * s.length + 8) s with
  | some (j, rest) => if skipWs rest = [] then some j else none
  | none => none

/-- Index of the first occurrence of a character. -/
def idxOfFirst (c : Char) : Str → Option Nat
  | [] => none
  | a :: rest =>
    if a = c then some 0
    else
      match idxOfFirst c rest with
      | some i => some (i + 1)
      | none => none

/-- Index of the last occurrence of a character. -/
def idxOfLast (c : Char) : Str → Option Nat
  | [] => none
  | a :: rest =>
    match idxOfLast c rest with
    | some i => some (i + 1)
    | none => if a = c then some 0 else none

/-- Model of re.search of the pattern of one opening brace, a greedy
any-character run (DOTALL), and one closing brace: the match, when one exists,
runs from the first opening brace of the text to its last closing brace, and it
exists exactly when the last closing brace lies strictly after the first
opening brace. -/
def braceSpan (s : Str) : Option Str :=
  match idxOfFirst lbrace s, idxOfLast rbrace s with
  | some i, some j => if i < j then some ((s.drop i).take (j - i + 1)) else none
  | _, _ => none

/-- Outcome of the response parsing step of process_document_with_ai
(server.py lines 428-439): either the decoded JSON object, or the degraded
fallback record built from the full reply text. -/
inductive ExtractionResult where
  | structured (data : Json)
  | degraded (data : Json)

/-- The record stored as extracted_data in either case. -/
def ExtractionResult.data : ExtractionResult → Json
  | .structured j => j
  | .degraded j => j

/-- The degraded fallback record of the response parsing step. -/
def degradedRecord (text : Str) : Json :=
  Json.obj [("raw_response".toList, Json.str text),
            ("status".toList, Json.str ("needs_review".toList))]

/-- The response parsing step of process_document_with_ai (server.py lines
428-439): search the reply for the brace-to-brace span, attempt to decode it,
and fall back to the degraded record when no span is found or the decode
fails. The decode function is a parameter so that the step's dispatch
behaviour is settled for every behaviour of json.loads; the pipeline
instantiates it with `jsonDecode`. -/
def parseResponse (decode : Str → Option Json) (text : Str) : ExtractionResult :=
  match braceSpan text with
  | some sub =>
    match decode sub with
    | some j => ExtractionResult.structured j
    | none => ExtractionResult.degraded (degradedRecord text)
  | none => ExtractionResult.degraded (degradedRecord text)

/-- Document status state machine values (Document model, server.py line 136). -/
inductive DocStatus where
  | uploaded
  | processing
  | completed
  | failed
  | needs_review
deriving DecidableEq

/-- A Document record. Fields a reorder plan may overwrite with arbitrary
decoded values (original_filename, display_order, reorder_reasoning) are kept
as JSON values, since server.py stores the plan's raw entries into them. -/
structure Doc where
  id : Str
  original_filename : Json
  project_id : Str
  status : DocStatus
  extracted_data : Option Json := none
  processed_at : Option Int := none
  display_order : Option Json := none
  reorder_reasoning : Option Json := none
  reordered_at : Option Int := none
  created_at : Int

/-- Single-document pipeline process_document_with_ai (server.py lines
355-459): set status processing; fail when no AI credential is configured;
fail when the AI call raises (the catch-all boundary); otherwise store the
parse of the reply as extracted_data, set status completed and stamp
processed_at. The AI call is a parameter: a raw reply text or a raised error. -/
def processDocumentWithAi (apiKey : Option Str) (response : Except Str Str)
    (now : Int) (doc : Doc) : Doc :=
  let doc1 := { doc with status := DocStatus.processing }
  match apiKey with
  | none => { doc1 with status := DocStatus.failed }
  | some _ =>
    match response with
    | Except.error _ => { doc1 with status := DocStatus.failed }
    | Except.ok text =>
      { doc1 with
          status := DocStatus.completed,
          extracted_data := some (parseResponse jsonDecode text).data,
          processed_at := some now }

/-- Task status values (reorder_tasks / process_tasks records). -/
inductive TaskStatus where
  | processing
  | completed
  | failed
deriving DecidableEq

/-- A task record as stored in db.reorder_tasks or db.process_tasks. Optional
fields model fields absent from the Mongo document until set. -/
structure TaskRec where
  task_id : Str
  project_id : Str
  status : TaskStatus
  progress : Nat
  result : Option Json := none
  download_url : Option Str := none
  error : Option Str := none

/-- Python subscript on a decoded value: field lookup on an object, KeyError
when the key is absent, TypeError on any other value. -/
def jsonIndex (j : Json) (key : Str) : Except Str Json :=
  match j with
  | Json.obj kvs =>
    match lookupField kvs key with
    | some v => Except.ok v
    | none => Except.error ("KeyError: ".toList ++ key)
  | _ => Except.error ("TypeError: value is not subscriptable".toList)

/-- Python dict .get with a default: the bound value, the default when the
key is absent, AttributeError on a non-dict value. -/
def jsonGetD (j : Json) (key : Str) (dflt : Json) : Except Str Json :=
  match j with
  | Json.obj kvs =>
    match lookupField kvs key with
    | some v => Except.ok v
    | none => Except.ok dflt
  | _ => Except.error ("AttributeError: value has no attribute get".toList)

/-- Python iteration over a decoded value: the elements of a list, the
characters of a string, the keys of a dict, TypeError otherwise. -/
def iterElems (j : Json) : Except Str (List Json) :=
  match j with
  | Json.arr xs => Except.ok xs
  | Json.str s => Except.ok (s.map fun c => Json.str [c])
  | Json.obj kvs => Except.ok (kvs.map fun kv => Json.str kv.1)
  | _ => Except.error ("TypeError: value is not iterable".toList)

/-- Mongo equality between a dynamic filter value and a stored string id: it
holds only for the equal string. -/
def jsonEqStr (j : Json) (s : Str) : Bool :=
  match j with
  | Json.str t => decide (t = s)
  | _ => false

/-- db.collection.update_one: rewrite the first record satisfying the filter,
leave the rest unchanged (no-op when nothing matches). -/
def updateOneDocBy (docs : List Doc) (p : Doc → Bool) (f : Doc → Doc) : List Doc :=
  match docs with
  | [] => []
  | d :: rest => if p d then f d :: rest else d :: updateOneDocBy rest p f

/-- The error message of the reorder job when no credential is configured
(server.py line 608). -/
def noApiKeyMsg : Str := "No API key available".toList

/-- The error message raised when the reply holds no brace span (server.py
line 683). -/
def invalidFmtMsg : Str := "Invalid AI response format".toList

/-- Stand-in for the message text of Python's json.JSONDecodeError; no claim
inspects this text. -/
def jsonErrMsg : Str := "JSONDecodeError".toList

/-- One successful iteration of the plan-application loop of
process_document_reordering (server.py lines 695-719): write the entry's
new_order, suggested_name, reasoning and the reorder timestamp onto the
document matching the entry's id (no-op on a foreign id). Partial application
helper for stating what a prefix of the loop leaves behind; only meaningful on
an entry whose id, new_order and suggested_name lookups succeed. -/
def applyEntry (now : Int) (docs : List Doc) (e : Json) : List Doc :=
  match jsonIndex e ("id".toList), jsonIndex e ("new_order".toList),
        jsonIndex e ("suggested_name".toList) with
  | Except.ok docIdJ, Except.ok newOrderJ, Except.ok nameJ =>
    let reasoningJ := ((jsonGetD e ("reasoning".toList) (Json.str [])).toOption).getD (Json.str [])
    updateOneDocBy docs (fun d => jsonEqStr docIdJ d.id) (fun d =>
      { d with
          display_order := some newOrderJ,
          original_filename := nameJ,
          reorder_reasoning := some reasoningJ,
          reordered_at := some now })
  | _, _, _ => docs

/-- The per-entry summary appended to reorder_results (server.py lines
714-719); only meaningful on a well-formed entry. -/
def entrySummary (e : Json) : Json :=
  Json.obj [
    ("id".toList, ((jsonIndex e ("id".toList)).toOption).getD Json.null),
    ("new_order".toList, ((jsonIndex e ("new_order".toList)).toOption).getD Json.null),
    ("new_name".toList, ((jsonIndex e ("suggested_name".toList)).toOption).getD Json.null),
    ("reasoning".toList, ((jsonGetD e ("reasoning".toList) (Json.str [])).toOption).getD (Json.str []))]

/-- The plan-application loop of process_document_reordering (server.py lines
694-719): entries are applied to the document store one at a time, in order;
the first entry whose id, new_order or suggested_name subscript raises aborts
the loop with that error, keeping every document update already performed. -/
def applyPlanLoop (now : Int) : List Json → List Doc → List Json →
    List Doc × Except Str (List Json)
  | [], docs, acc => (docs, Except.ok acc.reverse)
  | e :: rest, docs, acc =>
    match jsonIndex e ("id".toList) with
    | Except.error msg => (docs, Except.error msg)
    | Except.ok _ =>
      match jsonIndex e ("new_order".toList) with
      | Except.error msg => (docs, Except.error msg)
      | Except.ok _ =>
        match jsonIndex e ("suggested_name".toList) with
        | Except.error msg => (docs, Except.error msg)
        | Except.ok _ => applyPlanLoop now rest (applyEntry now docs e) (entrySummary e :: acc)

/-- Batch reorder job process_document_reordering (server.py lines 588-747).
Returns the ordered list of task-record states written to db.reorder_tasks
over the job's lifetime together with the final document store. The AI call
is a parameter (reply text or raised transport error); json.loads is
`jsonDecode`. The catch-all boundary turns any raised error into a final
failed write that keeps the last written progress. -/
def processDocumentReordering (apiKey : Option Str) (response : Except Str Str)
    (now : Int) (projectId taskId : Str) (docs : List Doc) :
    List TaskRec × List Doc :=
  let t0 : TaskRec := { task_id := taskId, project_id := projectId,
                        status := TaskStatus.processing, progress := 0 }
  match apiKey with
  | none =>
    ([t0, { t0 with status := TaskStatus.failed, error := some noApiKeyMsg }], docs)
  | some _ =>
    let t25 := { t0 with progress := 25 }
    let t50 := { t25 with progress := 50 }
    match response with
    | Except.error e =>
      ([t0, t25, t50, { t50 with status := TaskStatus.failed, error := some e }], docs)
    | Except.ok text =>
      match braceSpan text with
      | none =>
        ([t0, t25, t50, { t50 with status := TaskStatus.failed, error := some invalidFmtMsg }], docs)
      | some sub =>
        match jsonDecode sub with
        | none =>
          ([t0, t25, t50, { t50 with status := TaskStatus.failed, error := some jsonErrMsg }], docs)
        | some aiResult =>
          let t75 := { t50 with progress := 75 }
          match jsonGetD aiResult ("documents".toList) (Json.arr []) with
          | Except.error msg =>
            ([t0, t25, t50, t75, { t75 with status := TaskStatus.failed, error := some msg }], docs)
          | Except.ok docsJ =>
            match iterElems docsJ with
            | Except.error msg =>
              ([t0, t25, t50, t75, { t75 with status := TaskStatus.failed, error := some msg }], docs)
            | Except.ok entries =>
              match applyPlanLoop now entries docs [] with
              | (docs2, Except.error msg) =>
                ([t0, t25, t50, t75, { t75 with status := TaskStatus.failed, error := some msg }], docs2)
              | (docs2, Except.ok results) =>
                let strategy :=
                  ((jsonGetD aiResult ("reordering_strategy".toList) (Json.str [])).toOption).getD (Json.str [])
                let tDone := { t75 with
                  status := TaskStatus.completed,
                  progress := 100,
                  result := some (Json.obj [
                    ("strategy".toList, strategy),
                    ("documents".toList, Json.arr results),
                    ("total_processed".toList, Json.num results.length)]) }
                ([t0, t25, t50, t75, tDone], docs2)

/-- The apostrophe character, written via its code point. -/
def squote : Char := Char.ofNat 39

/-- Decimal rendering of a natural number (fuel-bounded). -/
def natToStr (fuel n : Nat) : Str :=
  match fuel with
  | 0 => []
  | f + 1 =>
    if n < 10 then [Char.ofNat (48 + n)]
    else natToStr f (n / 10) ++ [Char.ofNat (48 + n % 10)]

/-- Decimal rendering of an integer. -/
def intToStr (n : Int) : Str :=
  if n < 0 then '-' :: natToStr (n.natAbs + 1) n.natAbs
  else natToStr (n.natAbs + 1) n.natAbs

/-- Python str() of a decoded value, for the interpolated reasoning text of
process_document_changes; containers render as a placeholder (no claim
inspects this text). -/
def jsonToText : Json → Str
  | Json.str s => s
  | Json.num n => intToStr n
  | Json.bool true => "True".toList
  | Json.bool false => "False".toList
  | Json.null => "None".toList
  | Json.arr _ => "[...]".toList
  | Json.obj _ => "dict".toList

/-- The interpolated reorder_reasoning text written by
process_document_changes (server.py line 1016). -/
def changeReasoning (nameJ orderJ : Json) : Json :=
  Json.str ("Renombrado a ".toList ++ [squote] ++ jsonToText nameJ ++ [squote] ++
            " y reordenado a posición ".toList ++ jsonToText orderJ)

/-- First value bound to a document id in the decoded changes dict. -/
def lookupChange : List (Str × Json) → Str → Option Json
  | [], _ => none
  | (k, v) :: rest, key => if k = key then some v else lookupChange rest key

/-- The document rewrite of one matched change of process_document_changes
(server.py lines 1010-1020). -/
def applyChange (now : Int) (newNameJ newOrderJ : Json) (d : Doc)
    (docsDb : List Doc) : List Doc :=
  updateOneDocBy docsDb (fun x => decide (x.id = d.id)) (fun x =>
    { x with
        original_filename := newNameJ,
        display_order := some newOrderJ,
        reorder_reasoning := some (changeReasoning newNameJ newOrderJ),
        reordered_at := some now })

/-- The per-document loop of process_document_changes (server.py lines
1002-1029): each snapshot document whose id is a key of the changes dict is
rewritten in the store and followed by one progress write of
25 + (processed/total)*50 (integer-truncated); a raised error aborts the loop
keeping prior updates. Returns the progress writes, the processed count, the
final store, and the raised message when one was raised. -/
def applyChangesLoop (changes : List (Str × Json)) (now : Int) (total : Nat)
    (base : TaskRec) :
    List Doc → Nat → List Doc → List TaskRec × Nat × List Doc × Option Str
  | [], count, docsDb => ([], count, docsDb, none)
  | d :: rest, count, docsDb =>
    match lookupChange changes d.id with
    | none => applyChangesLoop changes now total base rest count docsDb
    | some changeJ =>
      match jsonGetD changeJ ("newName".toList) d.original_filename with
      | Except.error msg => ([], count, docsDb, some msg)
      | Except.ok newNameJ =>
        match jsonGetD changeJ ("newOrder".toList) (Json.num 1) with
        | Except.error msg => ([], count, docsDb, some msg)
        | Except.ok newOrderJ =>
          let w : TaskRec := { base with progress := 25 + (count + 1) * 50 / total }
          match applyChangesLoop changes now total base rest (count + 1)
              (applyChange now newNameJ newOrderJ d docsDb) with
          | (ws, c3, db3, err) => (w :: ws, c3, db3, err)

/-- Client-driven change job process_document_changes (server.py lines
981-1061): insert the processing record, write progress 25, apply the changes
document by document with per-document progress writes, then write progress
75 and the completed record carrying the download URL and counts; any raised
error instead ends the trace with a failed write keeping the last progress. -/
def processDocumentChanges (changes : List (Str × Json)) (documents : List Doc)
    (now : Int) (projectId taskId : Str) (docsDb : List Doc) :
    List TaskRec × List Doc :=
  let t0 : TaskRec := { task_id := taskId, project_id := projectId,
                        status := TaskStatus.processing, progress := 0 }
  let t25 := { t0 with progress := 25 }
  match applyChangesLoop changes now documents.length t25 documents 0 docsDb with
  | (ws, count, db2, none) =>
    let tLast := ws.getLastD t25
    let t75 := { tLast with progress := 75 }
    let url := "/api/projects/".toList ++ projectId ++ "/download-processed/".toList ++ taskId
    let tDone := { t75 with
      status := TaskStatus.completed,
      progress := 100,
      download_url := some url,
      result := some (Json.obj [
        ("processed_documents".toList, Json.num count),
        ("total_documents".toList, Json.num documents.length)]) }
    (t0 :: t25 :: (ws ++ [t75, tDone]), db2)
  | (ws, _, db2, some msg) =>
    let tLast := ws.getLastD t25
    (t0 :: t25 :: (ws ++ [{ tLast with status := TaskStatus.failed, error := some msg }]), db2)

/-- The status string stored in a task record. -/
def statusStr : TaskStatus → Str
  | TaskStatus.processing => "processing".toList
  | TaskStatus.completed => "completed".toList
  | TaskStatus.failed => "failed".toList

/-- A Python Optional string as a JSON response field. -/
def optStrJson : Option Str → Json
  | none => Json.null
  | some s => Json.str s

/-- The body returned by both poll endpoints when the scoped lookup finds no
record. -/
def notFoundResp : Json :=
  Json.obj [("status".toList, Json.str ("not_found".toList))]

/-- db.<tasks>.find_one on the filter of task_id and project_id: the first
record matching both. -/
def findTask (tasks : List TaskRec) (taskId projectId : Str) : Option TaskRec :=
  tasks.find? fun t => decide (t.task_id = taskId) && decide (t.project_id = projectId)

/-- The body get_reorder_status builds from a found record (server.py lines
580-585). -/
def renderReorderStatus (t : TaskRec) : Json :=
  Json.obj [
    ("status".toList, Json.str (statusStr t.status)),
    ("progress".toList, Json.num t.progress),
    ("result".toList, t.result.getD (Json.obj [])),
    ("error".toList, optStrJson t.error)]

/-- Poll endpoint get_reorder_status (server.py lines 569-585): scoped lookup
of the task under the given project; not_found body when absent. -/
def getReorderStatus (tasks : List TaskRec) (projectId taskId : Str) : Json :=
  match findTask tasks taskId projectId with
  | none => notFoundResp
  | some t => renderReorderStatus t

/-- The body get_process_status builds from a found record (server.py lines
1109-1114). -/
def renderProcessStatus (t : TaskRec) : Json :=
  Json.obj [
    ("status".toList, Json.str (statusStr t.status)),
    ("progress".toList, Json.num t.progress),
    ("download_url".toList, optStrJson t.download_url),
    ("error".toList, optStrJson t.error)]

/-- Poll endpoint get_process_status (server.py lines 1099-1114): scoped
lookup of the task under the given project; not_found body when absent. -/
def getProcessStatus (tasks : List TaskRec) (projectId taskId : Str) : Json :=
  match findTask tasks taskId projectId with
  | none => notFoundResp
  | some t => renderProcessStatus t

/-- Enqueue endpoint reorder_documents_with_ai (server.py lines 534-567):
gather the project's completed documents, reject an empty set with HTTP 400,
otherwise schedule the background job and answer immediately. The reorder
task registry is passed through untouched: the endpoint inserts nothing. -/
def reorderDocumentsWithAiEndpoint (docsDb : List Doc) (tasks : List TaskRec)
    (projectId freshId : Str) : Except Nat Json × List TaskRec :=
  let completed := docsDb.filter fun d =>
    decide (d.project_id = projectId) && decide (d.status = DocStatus.completed)
  if completed.length = 0 then (Except.error 400, tasks)
  else
    (Except.ok (Json.obj [
      ("message".toList, Json.str ("Document reordering started".toList)),
      ("task_id".toList, Json.str freshId),
      ("documents_count".toList, Json.num completed.length),
      ("status".toList, Json.str ("processing".toList))]), tasks)

/-- Comparison used on display_order values by the listing sort. Python only
defines the comparison between two numbers (other pairs raise TypeError,
outside every claim); this embedding totalizes it by placing all non-numeric
values after all numbers and mutually equivalent. -/
def jsonLeB (a b : Json) : Bool :=
  match a, b with
  | Json.num x, Json.num y => decide (x ≤ y)
  | Json.num _, _ => true
  | _, Json.num _ => false
  | _, _ => true

/-- The sort key comparison of get_project_documents (server.py lines
298-305): documents carrying a display_order sort before those without, by
that order; documents without sort among themselves by created_at. -/
def docLeB (a b : Doc) : Bool :=
  match a.display_order, b.display_order with
  | some x, some y => jsonLeB x y
  | some _, none => true
  | none, some _ => false
  | none, none => decide (a.created_at ≤ b.created_at)

/-- The listing order as a binary relation. -/
def docLe (a b : Doc) : Prop := docLeB a b = true

instance : DecidableRel docLe := fun a b => by unfold docLe; infer_instance

theorem jsonLeB_total (a b : Json) : jsonLeB a b = true ∨ jsonLeB b a = true := by
  cases a <;> cases b <;> simp [jsonLeB] <;> omega

theorem jsonLeB_trans (a b c : Json) (h1 : jsonLeB a b = true)
    (h2 : jsonLeB b c = true) : jsonLeB a c = true := by
  cases a <;> cases b <;> cases c <;> simp_all [jsonLeB] <;> omega

instance : IsTotal Doc docLe := by
  constructor
  intro a b
  unfold docLe docLeB
  cases ha : a.display_order <;> cases hb : b.display_order <;> simp
  · omega
  · exact jsonLeB_total _ _

instance : IsTrans Doc docLe := by
  constructor
  intro a b c h1 h2
  unfold docLe docLeB at *
  cases ha : a.display_order <;> cases hb : b.display_order <;>
    cases hc : c.display_order <;> simp_all
  · omega
  · exact jsonLeB_trans _ _ _ h1 h2

/-- Document listing get_project_documents (server.py lines 284-307): the
project's documents sorted by the listing order. Python's list.sort is a
stable sort by the key; a stable sort for a total transitive relation is
extensionally unique, so it is embedded as a stable insertion sort. -/
def getProjectDocuments (docsDb : List Doc) (projectId : Str) : List Doc :=
  List.insertionSort docLe (docsDb.filter fun d => decide (d.project_id = projectId))

/-- Non-decrease of a written progress sequence. -/
def progressMono : List Nat → Bool
  | [] => true
  | [_] => true
  | a :: b :: rest => decide (a ≤ b) && progressMono (b :: rest)

/-- The task-trace invariant of the spec: progress writes are non-decreasing,
bounded by 100, and a write of 100 carries status completed. -/
def traceOk (tr : List TaskRec) : Bool :=
  progressMono (tr.map fun t => t.progress) &&
  (tr.all fun t => decide (t.progress ≤ 100)) &&
  (tr.all fun t => decide (t.progress = 100 → t.status = TaskStatus.completed))

/-- Scenario A reply text. -/
def scenarioAText : Str :=
  "Here you go: \x7b\"amount\": 42, \"vendor\": \"Acme\"\x7d".toList

/-- The brace span of the scenario A reply. -/
def scenarioASpan : Str :=
  "\x7b\"amount\": 42, \"vendor\": \"Acme\"\x7d".toList

/-- The decoded scenario A object. -/
def scenarioAData : Json :=
  Json.obj [("amount".toList, Json.num 42), ("vendor".toList, Json.str ("Acme".toList))]

/-- C1: the response parsing step is total (a Lean function) and never
raises; when the text holds a decodable span from its first opening brace to
its last closing brace it yields the Structured result of the decoded object,
and otherwise — no span, or a decode failure — it yields a Degraded result
equal to the record of raw_response bound to the full input text and status
bound to needs_review. Stated for every decode behaviour of json.loads. -/
theorem c1_parse_total_structured_or_degraded
    (decode : Str → Option Json) (text : Str) :
    (∀ sub j, braceSpan text = some sub → decode sub = some j →
        parseResponse decode text = ExtractionResult.structured j) ∧
    ((braceSpan text = none ∨ ∃ sub, braceSpan text = some sub ∧ decode sub = none) →
        parseResponse decode text = ExtractionResult.degraded
          (Json.obj [("raw_response".toList, Json.str text),
                     ("status".toList, Json.str ("needs_review".toList))])) := by
  constructor
  · intro sub j hs hd
    simp only [parseResponse, hs, hd]
  · intro h
    rcases h with h | ⟨sub, hs, hd⟩
    · simp only [parseResponse, h, degradedRecord]
    · simp only [parseResponse, hs, hd, degradedRecord]

/-- Witness for C1 at the braceless scenario B reply. -/
theorem c1_witness :
    parseResponse jsonDecode ("I could not extract structured data.".toList)
      = ExtractionResult.degraded
          (Json.obj [("raw_response".toList,
                      Json.str ("I could not extract structured data.".toList)),
                     ("status".toList, Json.str ("needs_review".toList))]) :=
  (c1_parse_total_structured_or_degraded jsonDecode
    ("I could not extract structured data.".toList)).2 (Or.inl (by rfl))

/-- C2: whenever the span from the first opening brace to the last closing
brace decodes, parsing returns the Structured result wrapping exactly the
decoded map; and on the scenario A reply the pipeline's own decoder yields the
map of amount 42 and vendor Acme. -/
theorem c2_structured_wraps_decoded :
    (∀ (decode : Str → Option Json) (text sub : Str) (j : Json),
        braceSpan text = some sub → decode sub = some j →
        parseResponse decode text = ExtractionResult.structured j) ∧
    parseResponse jsonDecode scenarioAText = ExtractionResult.structured scenarioAData := by
  constructor
  · intro decode text sub j hs hd
    simp only [parseResponse, hs, hd]
  · rfl

/-- Witness for C2 at the scenario A reply. -/
theorem c2_witness :
    parseResponse jsonDecode scenarioAText = ExtractionResult.structured scenarioAData :=
  c2_structured_wraps_decoded.1 jsonDecode scenarioAText scenarioASpan scenarioAData
    (by rfl) (by rfl)

/-- C4: with no credential configured, the single-document pipeline marks the
document failed leaving extracted_data and processed_at unset, the batch
reorder job ends with a failed record carrying the captured error, the
document store is untouched, and neither outcome depends on what the AI call
would have returned (no call is attempted). -/
theorem c4_unavailable_credential_fails_immediately
    (response r2 : Except Str Str) (now : Int) (doc : Doc)
    (pid tid : Str) (docs : List Doc)
    (hx : doc.extracted_data = none) (hp : doc.processed_at = none) :
    (processDocumentWithAi none response now doc).status = DocStatus.failed ∧
    (processDocumentWithAi none response now doc).extracted_data = none ∧
    (processDocumentWithAi none response now doc).processed_at = none ∧
    processDocumentWithAi none response now doc = processDocumentWithAi none r2 now doc ∧
    (processDocumentReordering none response now pid tid docs).1.getLast? =
      some { task_id := tid, project_id := pid, status := TaskStatus.failed,
             progress := 0, error := some noApiKeyMsg } ∧
    (processDocumentReordering none response now pid tid docs).2 = docs ∧
    processDocumentReordering none response now pid tid docs =
      processDocumentReordering none r2 now pid tid docs := by
  refine ⟨rfl, ?_, ?_, rfl, rfl, rfl, rfl⟩
  · exact hx
  · exact hp

/-- A freshly uploaded document, before any processing. -/
def docFresh : Doc :=
  { id := "D".toList, original_filename := Json.str ("f.pdf".toList),
    project_id := "P".toList, status := DocStatus.uploaded, created_at := 0 }

/-- Witness for C4 at a fresh document and an empty batch. -/
theorem c4_witness :
    (processDocumentWithAi none (Except.ok ("irrelevant".toList)) 7 docFresh).status
        = DocStatus.failed ∧
    (processDocumentWithAi none (Except.ok ("irrelevant".toList)) 7 docFresh).extracted_data
        = none ∧
    (processDocumentWithAi none (Except.ok ("irrelevant".toList)) 7 docFresh).processed_at
        = none ∧
    processDocumentWithAi none (Except.ok ("irrelevant".toList)) 7 docFresh
        = processDocumentWithAi none (Except.error ("boom".toList)) 7 docFresh ∧
    (processDocumentReordering none (Except.ok ("irrelevant".toList)) 7
        ("P".toList) ("T".toList) [docFresh]).1.getLast? =
      some { task_id := "T".toList, project_id := "P".toList,
             status := TaskStatus.failed, progress := 0, error := some noApiKeyMsg } ∧
    (processDocumentReordering none (Except.ok ("irrelevant".toList)) 7
        ("P".toList) ("T".toList) [docFresh]).2 = [docFresh] ∧
    processDocumentReordering none (Except.ok ("irrelevant".toList)) 7
        ("P".toList) ("T".toList) [docFresh]
      = processDocumentReordering none (Except.error ("boom".toList)) 7
        ("P".toList) ("T".toList) [docFresh] :=
  c4_unavailable_credential_fails_immediately
    (Except.ok ("irrelevant".toList)) (Except.error ("boom".toList)) 7 docFresh
    ("P".toList) ("T".toList) [docFresh] (by rfl) (by rfl)

/-- C7: a poll whose (subject, task) pair matches no record under that
subject answers the not_found body on both poll endpoints; and any other
answer comes from a record stored under exactly the polled pair — no other
subject's record is ever returned. -/
theorem c7_scoped_lookup_never_leaks :
    (∀ (tasks : List TaskRec) (pid tid : Str),
        (∀ t ∈ tasks, ¬(t.task_id = tid ∧ t.project_id = pid)) →
        getReorderStatus tasks pid tid = notFoundResp ∧
        getProcessStatus tasks pid tid = notFoundResp) ∧
    (∀ (tasks : List TaskRec) (pid tid : Str),
        getReorderStatus tasks pid tid ≠ notFoundResp →
        ∃ t, t ∈ tasks ∧ t.task_id = tid ∧ t.project_id = pid ∧
          getReorderStatus tasks pid tid = renderReorderStatus t) ∧
    (∀ (tasks : List TaskRec) (pid tid : Str),
        getProcessStatus tasks pid tid ≠ notFoundResp →
        ∃ t, t ∈ tasks ∧ t.task_id = tid ∧ t.project_id = pid ∧
          getProcessStatus tasks pid tid = renderProcessStatus t) := by
  have hnone : ∀ (tasks : List TaskRec) (pid tid : Str),
      (∀ t ∈ tasks, ¬(t.task_id = tid ∧ t.project_id = pid)) →
      findTask tasks tid pid = none := by
    intro tasks pid tid h
    unfold findTask
    rw [List.find?_eq_none]
    intro t ht
    simp only [Bool.and_eq_true, decide_eq_true_eq]
    exact fun hc => h t ht hc
  refine ⟨?_, ?_, ?_⟩
  · intro tasks pid tid h
    constructor
    · unfold getReorderStatus
      rw [hnone tasks pid tid h]
    · unfold getProcessStatus
      rw [hnone tasks pid tid h]
  · intro tasks pid tid h
    unfold getReorderStatus at *
    cases hf : findTask tasks tid pid with
    | none => rw [hf] at h; exact absurd rfl h
    | some t =>
      have hmem := List.mem_of_find?_eq_some hf
      have hp := List.find?_some hf
      simp only [Bool.and_eq_true, decide_eq_true_eq] at hp
      exact ⟨t, hmem, hp.1, hp.2, by simp only [hf]⟩
  · intro tasks pid tid h
    unfold getProcessStatus at *
    cases hf : findTask tasks tid pid with
    | none => rw [hf] at h; exact absurd rfl h
    | some t =>
      have hmem := List.mem_of_find?_eq_some hf
      have hp := List.find?_some hf
      simp only [Bool.and_eq_true, decide_eq_true_eq] at hp
      exact ⟨t, hmem, hp.1, hp.2, by simp only [hf]⟩

/-- A task record stored under project P1. -/
def taskX : TaskRec :=
  { task_id := "X".toList, project_id := "P1".toList,
    status := TaskStatus.completed, progress := 100 }

/-- Witness for C7: polling project P2 with a task id valid under project P1
answers not_found on both endpoints. -/
theorem c7_witness :
    getReorderStatus [taskX] ("P2".toList) ("X".toList) = notFoundResp ∧
    getProcessStatus [taskX] ("P2".toList) ("X".toList) = notFoundResp :=
  c7_scoped_lookup_never_leaks.1 [taskX] ("P2".toList) ("X".toList)
    (by
      intro t ht
      rw [List.mem_singleton] at ht
      subst ht
      intro hc
      exact absurd hc (by decide))

/-- C9: the enqueue endpoint inserts no task record — the registry it returns
is the one it was given; polling the freshly generated task id before the
background job has run answers not_found; and the processing/progress-0
record is the first write of the background job itself. -/
theorem c9_enqueue_inserts_no_record
    (docsDb : List Doc) (tasks : List TaskRec) (pid freshId : Str)
    (hfresh : ∀ t ∈ tasks, t.task_id ≠ freshId) :
    (reorderDocumentsWithAiEndpoint docsDb tasks pid freshId).2 = tasks ∧
    getReorderStatus tasks pid freshId = notFoundResp ∧
    (∀ (apiKey : Option Str) (response : Except Str Str) (now : Int) (docs : List Doc),
        (processDocumentReordering apiKey response now pid freshId docs).1.head? =
          some { task_id := freshId, project_id := pid,
                 status := TaskStatus.processing, progress := 0 }) := by
  refine ⟨?_, ?_, ?_⟩
  · simp only [reorderDocumentsWithAiEndpoint]
    split <;> rfl
  · unfold getReorderStatus
    have hf : findTask tasks freshId pid = none := by
      unfold findTask
      rw [List.find?_eq_none]
      intro t ht
      simp only [Bool.and_eq_true, decide_eq_true_eq]
      exact fun hc => hfresh t ht hc.1
    simp only [hf]
  · intro apiKey response now docs
    unfold processDocumentReordering
    repeat' split
    all_goals rfl

/-- Witness for C9 with one stored task unrelated to the fresh id. -/
theorem c9_witness :
    (reorderDocumentsWithAiEndpoint [docFresh] [taskX] ("P1".toList) ("F".toList)).2
        = [taskX] ∧
    getReorderStatus [taskX] ("P1".toList) ("F".toList) = notFoundResp ∧
    (∀ (apiKey : Option Str) (response : Except Str Str) (now : Int) (docs : List Doc),
        (processDocumentReordering apiKey response now ("P1".toList) ("F".toList) docs).1.head? =
          some { task_id := "F".toList, project_id := "P1".toList,
                 status := TaskStatus.processing, progress := 0 }) :=
  c9_enqueue_inserts_no_record [docFresh] [taskX] ("P1".toList) ("F".toList)
    (by
      intro t ht
      rw [List.mem_singleton] at ht
      subst ht
      decide)

/-- C8: every write of the reorder job before the final one carries status
processing, so a record that has reached completed or failed is never written
again — repeated polls of a terminal task therefore read back the identical
stored record. -/
theorem c8_terminal_record_never_rewritten
    (apiKey : Option Str) (response : Except Str Str) (now : Int)
    (pid tid : Str) (docs : List Doc) :
    ((processDocumentReordering apiKey response now pid tid docs).1.dropLast.all
      fun t => decide (t.status = TaskStatus.processing)) = true := by
  unfold processDocumentReordering
  repeat' split
  all_goals rfl

/-- A model reply that decodes but has no top-level documents list. -/
def c3Text : Str :=
  "\x7b\"reordering_strategy\": \"chronological\"\x7d".toList

/-- C3 counterexample: on a reply whose decoded object carries no documents
list, the reorder task ends completed, not failed — the claimed escalation to
task failure does not happen. -/
theorem c3_counterexample_no_documents_completes :
    ((processDocumentReordering (some ("k".toList)) (Except.ok c3Text) 0
        ("P".toList) ("T".toList) [docFresh]).1.getLast?).map (fun t => t.status)
      = some TaskStatus.completed ∧
    ((processDocumentReordering (some ("k".toList)) (Except.ok c3Text) 0
        ("P".toList) ("T".toList) [docFresh]).1.getLast?).map (fun t => t.status)
      ≠ some TaskStatus.failed := by
  constructor
  · rfl
  · intro h
    have h1 : ((processDocumentReordering (some ("k".toList)) (Except.ok c3Text) 0
        ("P".toList) ("T".toList) [docFresh]).1.getLast?).map (fun t => t.status)
      = some TaskStatus.completed := rfl
    rw [h1] at h
    exact absurd h (by decide)

/-- C3 amended: a reply with no brace span, or with an undecodable span, ends
the reorder task failed with a captured error; a decodable reply whose object
lacks a documents list instead ends the task completed with a result counting
zero processed documents. -/
theorem c3_amended_plan_failure_vs_empty_plan
    (k text : Str) (now : Int) (pid tid : Str) (docs : List Doc) :
    (braceSpan text = none →
      ∃ t, (processDocumentReordering (some k) (Except.ok text) now pid tid docs).1.getLast?
            = some t ∧
        t.status = TaskStatus.failed ∧ t.error = some invalidFmtMsg) ∧
    (∀ sub, braceSpan text = some sub → jsonDecode sub = none →
      ∃ t, (processDocumentReordering (some k) (Except.ok text) now pid tid docs).1.getLast?
            = some t ∧
        t.status = TaskStatus.failed ∧ t.error = some jsonErrMsg) ∧
    (∀ sub kvs, braceSpan text = some sub → jsonDecode sub = some (Json.obj kvs) →
      lookupField kvs ("documents".toList) = none →
      ∃ t, (processDocumentReordering (some k) (Except.ok text) now pid tid docs).1.getLast?
            = some t ∧
        t.status = TaskStatus.completed ∧
        ∃ res, t.result = some res ∧
          jsonIndex res ("total_processed".toList) = Except.ok (Json.num 0)) := by
  refine ⟨?_, ?_, ?_⟩
  · intro hb
    refine ⟨{ task_id := tid, project_id := pid, status := TaskStatus.failed,
              progress := 50, error := some invalidFmtMsg }, ?_, rfl, rfl⟩
    simp only [processDocumentReordering, hb]
    rfl
  · intro sub hb hd
    refine ⟨{ task_id := tid, project_id := pid, status := TaskStatus.failed,
              progress := 50, error := some jsonErrMsg }, ?_, rfl, rfl⟩
    simp only [processDocumentReordering, hb, hd]
    rfl
  · intro sub kvs hb hd hnone
    refine ⟨{ task_id := tid, project_id := pid, status := TaskStatus.completed,
              progress := 100,
              result := some (Json.obj [
                ("strategy".toList,
                  ((jsonGetD (Json.obj kvs) ("reordering_strategy".toList)
                      (Json.str [])).toOption).getD (Json.str [])),
                ("documents".toList, Json.arr []),
                ("total_processed".toList, Json.num 0)]) }, ?_, rfl, ?_⟩
    · simp only [processDocumentReordering, hb, hd, jsonGetD, hnone, iterElems,
        applyPlanLoop, List.reverse_nil]
      rfl
    · refine ⟨_, rfl, ?_⟩
      simp only [jsonIndex, lookupField]
      simp

/-- Witness for the amended C3 at a braceless reply. -/
theorem c3_amended_witness :
    ∃ t, (processDocumentReordering (some ("k".toList)) (Except.ok ("no json here".toList))
            0 ("P".toList) ("T".toList) [docFresh]).1.getLast? = some t ∧
      t.status = TaskStatus.failed ∧ t.error = some invalidFmtMsg :=
  (c3_amended_plan_failure_vs_empty_plan ("k".toList) ("no json here".toList)
    0 ("P".toList) ("T".toList) [docFresh]).1 (by rfl)

/-- Scenario D document A (created first). -/
def docA : Doc :=
  { id := "A".toList, original_filename := Json.str ("a.pdf".toList),
    project_id := "P".toList, status := DocStatus.completed,
    extracted_data := some (Json.obj []), processed_at := some 5, created_at := 1 }

/-- Scenario D document B (created second). -/
def docB : Doc :=
  { id := "B".toList, original_filename := Json.str ("b.pdf".toList),
    project_id := "P".toList, status := DocStatus.completed,
    extracted_data := some (Json.obj []), processed_at := some 6, created_at := 2 }

/-- Scenario D document C (created third). -/
def docC : Doc :=
  { id := "C".toList, original_filename := Json.str ("c.pdf".toList),
    project_id := "P".toList, status := DocStatus.completed,
    extracted_data := some (Json.obj []), processed_at := some 7, created_at := 3 }

/-- Scenario D model reply: the plan assigns new_order 2, 1, 3 to documents
A, B, C respectively. -/
def scenarioDText : Str :=
  ("\x7b\"reordering_strategy\": \"chronological\", \"documents\": [" ++
   "\x7b\"id\": \"A\", \"new_order\": 2, \"suggested_name\": \"Doc A\", \"reasoning\": \"ra\"\x7d, " ++
   "\x7b\"id\": \"B\", \"new_order\": 1, \"suggested_name\": \"Doc B\", \"reasoning\": \"rb\"\x7d, " ++
   "\x7b\"id\": \"C\", \"new_order\": 3, \"suggested_name\": \"Doc C\", \"reasoning\": \"rc\"\x7d]\x7d").toList

/-- The scenario D batch reorder run. -/
def scenarioDRun : List TaskRec × List Doc :=
  processDocumentReordering (some ("key".toList)) (Except.ok scenarioDText) 9
    ("P".toList) ("T".toList) [docA, docB, docC]

/-- C6: the document listing is sorted by the listing order, under which
every document carrying a display_order precedes every document without one,
and documents without one are mutually ordered by created_at; and in scenario
D the plan of new_order 2, 1, 3 on A, B, C produces the listing B, A, C with
a final task result counting 3 processed documents. -/
theorem c6_listing_sort_and_scenario_d :
    (∀ (docsDb : List Doc) (pid : Str),
        List.Sorted docLe (getProjectDocuments docsDb pid)) ∧
    (∀ (docsDb : List Doc) (pid : Str)
        (i j : Fin (getProjectDocuments docsDb pid).length), i < j →
        ((getProjectDocuments docsDb pid).get i).display_order = none →
        ((getProjectDocuments docsDb pid).get j).display_order = none) ∧
    (∀ (docsDb : List Doc) (pid : Str)
        (i j : Fin (getProjectDocuments docsDb pid).length), i < j →
        ((getProjectDocuments docsDb pid).get i).display_order = none →
        ((getProjectDocuments docsDb pid).get j).display_order = none →
        ((getProjectDocuments docsDb pid).get i).created_at ≤
          ((getProjectDocuments docsDb pid).get j).created_at) ∧
    ((getProjectDocuments scenarioDRun.2 ("P".toList)).map (fun d => d.id)
        = ["B".toList, "A".toList, "C".toList]) ∧
    (∃ t, scenarioDRun.1.getLast? = some t ∧ ∃ res, t.result = some res ∧
        jsonIndex res ("total_processed".toList) = Except.ok (Json.num 3)) := by
  have hsorted : ∀ (docsDb : List Doc) (pid : Str),
      List.Sorted docLe (getProjectDocuments docsDb pid) := by
    intro docsDb pid
    unfold getProjectDocuments
    exact List.sorted_insertionSort docLe _
  have hrel : ∀ (docsDb : List Doc) (pid : Str)
      (i j : Fin (getProjectDocuments docsDb pid).length), i < j →
      docLe ((getProjectDocuments docsDb pid).get i)
        ((getProjectDocuments docsDb pid).get j) := by
    intro docsDb pid i j hij
    exact List.pairwise_iff_get.mp (hsorted docsDb pid) i j hij
  refine ⟨hsorted, ?_, ?_, by rfl, ⟨_, rfl, _, rfl, by rfl⟩⟩
  · intro docsDb pid i j hij hi
    have h := hrel docsDb pid i j hij
    unfold docLe docLeB at h
    simp only [List.get_eq_getElem] at hi ⊢
    cases hj : (getProjectDocuments docsDb pid)[(j : Nat)].display_order with
    | none => rfl
    | some y => simp [hi, hj] at h
  · intro docsDb pid i j hij hi hj
    have h := hrel docsDb pid i j hij
    unfold docLe docLeB at h
    simp only [List.get_eq_getElem] at hi hj ⊢
    simp [hi, hj] at h
    exact h

/-- An unordered document of project Q created first. -/
def docU1 : Doc :=
  { id := "U1".toList, original_filename := Json.str ("u1".toList),
    project_id := "Q".toList, status := DocStatus.completed, created_at := 1 }

/-- An unordered document of project Q created second. -/
def docU2 : Doc :=
  { id := "U2".toList, original_filename := Json.str ("u2".toList),
    project_id := "Q".toList, status := DocStatus.completed, created_at := 2 }

/-- Witness for C6: two unordered documents list in creation order. -/
theorem c6_witness :
    ((getProjectDocuments [docU1, docU2] ("Q".toList)).get ⟨0, by decide⟩).created_at ≤
      ((getProjectDocuments [docU1, docU2] ("Q".toList)).get ⟨1, by decide⟩).created_at :=
  c6_listing_sort_and_scenario_d.2.2.1 [docU1, docU2] ("Q".toList)
    ⟨0, by decide⟩ ⟨1, by decide⟩ (by decide) (by rfl) (by rfl)

/-- Whether a Python subscript would succeed. -/
def exceptOk (x : Except Str Json) : Bool :=
  match x with
  | Except.ok _ => true
  | Except.error _ => false

/-- A plan entry on which every subscript of the application loop succeeds. -/
def entryWfB (e : Json) : Bool :=
  exceptOk (jsonIndex e ("id".toList)) &&
  exceptOk (jsonIndex e ("new_order".toList)) &&
  exceptOk (jsonIndex e ("suggested_name".toList))

theorem exceptOk_iff (x : Except Str Json) : exceptOk x = true ↔ ∃ v, x = Except.ok v := by
  cases x <;> simp [exceptOk]

theorem planLoopAborts (now : Int) (bad : Json) (hbad : entryWfB bad = false)
    (good : List Json) :
    ∀ (rest : List Json) (docs : List Doc) (acc : List Json),
      (∀ e ∈ good, entryWfB e = true) →
      ∃ msg, applyPlanLoop now (good ++ bad :: rest) docs acc =
        (good.foldl (applyEntry now) docs, Except.error msg) := by
  induction good with
  | nil =>
    intro rest docs acc _
    simp only [List.nil_append, List.foldl_nil]
    cases hid : jsonIndex bad ("id".toList) with
    | error msg => exact ⟨msg, by simp only [applyPlanLoop, hid]⟩
    | ok v1 =>
      cases hor : jsonIndex bad ("new_order".toList) with
      | error msg => exact ⟨msg, by simp only [applyPlanLoop, hid, hor]⟩
      | ok v2 =>
        cases hnm : jsonIndex bad ("suggested_name".toList) with
        | error msg => exact ⟨msg, by simp only [applyPlanLoop, hid, hor, hnm]⟩
        | ok v3 =>
          exfalso
          have hw : entryWfB bad = true := by
            simp only [entryWfB, exceptOk, hid, hor, hnm, Bool.and_self]
          rw [hw] at hbad
          exact Bool.noConfusion hbad
  | cons e good' ih =>
    intro rest docs acc hwf
    have he := hwf e (List.mem_cons_self e good')
    simp only [entryWfB, Bool.and_eq_true] at he
    obtain ⟨⟨he1, he2⟩, he3⟩ := he
    obtain ⟨v1, hv1⟩ := (exceptOk_iff _).mp he1
    obtain ⟨v2, hv2⟩ := (exceptOk_iff _).mp he2
    obtain ⟨v3, hv3⟩ := (exceptOk_iff _).mp he3
    obtain ⟨msg, hm⟩ := ih rest (applyEntry now docs e) (entrySummary e :: acc)
      (fun x hx => hwf x (List.mem_cons_of_mem e hx))
    refine ⟨msg, ?_⟩
    simp only [List.cons_append, List.foldl_cons]
    simp only [applyPlanLoop, hv1, hv2, hv3]
    exact hm

/-- C10: the batch reorder plan is applied non-atomically — when a plan entry
beyond a prefix of well-formed entries misses one of its required keys, the
job ends with a failed record carrying a captured error, while the document
store keeps exactly the updates of every entry applied before the failure (no
rollback). -/
theorem c10_midloop_failure_keeps_prior_updates
    (k text sub : Str) (kvs : List (Str × Json)) (good : List Json) (bad : Json)
    (rest : List Json) (now : Int) (pid tid : Str) (docs : List Doc)
    (hspan : braceSpan text = some sub)
    (hdec : jsonDecode sub = some (Json.obj kvs))
    (hdocs : lookupField kvs ("documents".toList) = some (Json.arr (good ++ bad :: rest)))
    (hwf : ∀ e ∈ good, entryWfB e = true)
    (hbad : entryWfB bad = false) :
    (processDocumentReordering (some k) (Except.ok text) now pid tid docs).2 =
      good.foldl (applyEntry now) docs ∧
    ∃ t, (processDocumentReordering (some k) (Except.ok text) now pid tid docs).1.getLast?
          = some t ∧
      t.status = TaskStatus.failed ∧ ∃ msg, t.error = some msg := by
  obtain ⟨msg, hloop⟩ := planLoopAborts now bad hbad good rest docs [] hwf
  simp only [processDocumentReordering, hspan, hdec, jsonGetD, hdocs, iterElems, hloop]
  refine ⟨trivial, ?_⟩
  exact ⟨_, rfl, rfl, msg, rfl⟩

/-- A well-formed plan entry targeting document A. -/
def goodEntry : Json :=
  Json.obj [("id".toList, Json.str ("A".toList)), ("new_order".toList, Json.num 1),
            ("suggested_name".toList, Json.str ("NA".toList)),
            ("reasoning".toList, Json.str ("r".toList))]

/-- A plan entry missing its new_order and suggested_name keys. -/
def badEntry : Json :=
  Json.obj [("id".toList, Json.str ("B".toList))]

/-- A model reply whose plan holds one well-formed entry followed by a
malformed one. -/
def c10Text : Str :=
  ("\x7b\"documents\": [\x7b\"id\": \"A\", \"new_order\": 1, " ++
   "\"suggested_name\": \"NA\", \"reasoning\": \"r\"\x7d, \x7b\"id\": \"B\"\x7d]\x7d").toList

/-- Witness for C10: the entry for A lands before the malformed entry aborts
the loop and fails the task. -/
theorem c10_witness :
    (processDocumentReordering (some ("k".toList)) (Except.ok c10Text) 3
        ("P".toList) ("T".toList) [docA, docB]).2 =
      [goodEntry].foldl (applyEntry 3) [docA, docB] ∧
    ∃ t, (processDocumentReordering (some ("k".toList)) (Except.ok c10Text) 3
        ("P".toList) ("T".toList) [docA, docB]).1.getLast? = some t ∧
      t.status = TaskStatus.failed ∧ ∃ msg, t.error = some msg :=
  c10_midloop_failure_keeps_prior_updates ("k".toList) c10Text c10Text
    [("documents".toList, Json.arr [goodEntry, badEntry])]
    [goodEntry] badEntry [] 3 ("P".toList) ("T".toList) [docA, docB]
    (by rfl) (by rfl) (by rfl)
    (by
      intro e he
      rw [List.mem_singleton] at he
      subst he
      rfl)
    (by rfl)

theorem progressMono_iff (l : List Nat) :
    progressMono l = true ↔ List.Chain' (fun a b => a ≤ b) l := by
  induction l with
  | nil => simp [progressMono]
  | cons a l ih =>
    cases l with
    | nil => simp [progressMono]
    | cons b m =>
      rw [progressMono, List.chain'_cons]
      simp only [Bool.and_eq_true, decide_eq_true_eq]
      exact ⟨fun h => ⟨h.1, ih.mp h.2⟩, fun h => ⟨h.1, ih.mpr h.2⟩⟩

theorem progress_write_le (k t : Nat) (h : k ≤ t) : 25 + k * 50 / t ≤ 75 := by
  have h2 : k * 50 / t ≤ 50 := by
    rcases Nat.eq_zero_or_pos t with ht | ht
    · have hk : k = 0 := by omega
      subst hk
      simp
    · have h3 : k * 50 ≤ t * 50 := Nat.mul_le_mul_right 50 h
      calc k * 50 / t ≤ t * 50 / t := Nat.div_le_div_right h3
        _ = 50 := by rw [Nat.mul_comm]; exact Nat.mul_div_cancel 50 ht
  exact le_trans (Nat.add_le_add_left h2 25) (by norm_num)

theorem getLast?_cons_mem {α : Type _} (a : α) (l : List α) :
    ∀ x, (a :: l).getLast? = some x → x = a ∨ x ∈ l := by
  induction l generalizing a with
  | nil =>
    intro x h
    simp at h
    exact Or.inl h.symm
  | cons b m ih =>
    intro x h
    rw [List.getLast?_cons_cons] at h
    rcases ih b x h with h1 | h1
    · exact Or.inr (by rw [h1]; exact List.mem_cons_self b m)
    · exact Or.inr (List.mem_cons_of_mem b h1)

theorem getLast?_cons_map_progress (d : TaskRec) (ws : List TaskRec) :
    ((d.progress :: ws.map fun t => t.progress).getLast?)
      = some ((ws.getLastD d).progress) := by
  induction ws generalizing d with
  | nil => rfl
  | cons w m ih =>
    rw [List.map_cons, List.getLast?_cons_cons, List.getLastD_cons]
    exact ih w

theorem getLastD_cases {α : Type _} (l : List α) (d : α) :
    l.getLastD d = d ∨ l.getLastD d ∈ l := by
  induction l generalizing d with
  | nil => exact Or.inl rfl
  | cons a m ih =>
    rw [List.getLastD_cons]
    rcases ih a with h | h
    · exact Or.inr (by rw [h]; exact List.mem_cons_self a m)
    · exact Or.inr (List.mem_cons_of_mem a h)

/-- Number of snapshot documents the changes dict matches. -/
def numMatched (changes : List (Str × Json)) (snap : List Doc) : Nat :=
  (snap.filter fun d => (lookupChange changes d.id).isSome).length

theorem numMatched_cons_none (changes : List (Str × Json)) (d : Doc)
    (rest : List Doc) (hm : lookupChange changes d.id = none) :
    numMatched changes (d :: rest) = numMatched changes rest := by
  simp [numMatched, List.filter_cons, hm]

theorem numMatched_cons_some (changes : List (Str × Json)) (d : Doc)
    (rest : List Doc) (changeJ : Json) (hm : lookupChange changes d.id = some changeJ) :
    numMatched changes (d :: rest) = numMatched changes rest + 1 := by
  simp [numMatched, List.filter_cons, hm]

theorem applyChangesLoop_trace (changes : List (Str × Json)) (now : Int) (total : Nat)
    (base : TaskRec) (snap : List Doc) :
    ∀ (count : Nat) (docsDb : List Doc),
      count + numMatched changes snap ≤ total →
      List.Chain' (fun a b => a ≤ b)
        ((25 + count * 50 / total) ::
          ((applyChangesLoop changes now total base snap count docsDb).1.map
            fun t => t.progress)) ∧
      ∀ w ∈ (applyChangesLoop changes now total base snap count docsDb).1,
        w.progress ≤ 75 ∧ w.status = base.status := by
  induction snap with
  | nil =>
    intro count docsDb _
    simp only [applyChangesLoop]
    exact ⟨List.chain'_singleton _, by simp⟩
  | cons d rest ih =>
    intro count docsDb hle
    cases hm : lookupChange changes d.id with
    | none =>
      have hnum := numMatched_cons_none changes d rest hm
      simp only [applyChangesLoop, hm]
      exact ih count docsDb (by omega)
    | some changeJ =>
      cases hn : jsonGetD changeJ ("newName".toList) d.original_filename with
      | error msg =>
        simp only [applyChangesLoop, hm, hn]
        exact ⟨List.chain'_singleton _, by simp⟩
      | ok newNameJ =>
        cases ho : jsonGetD changeJ ("newOrder".toList) (Json.num 1) with
        | error msg =>
          simp only [applyChangesLoop, hm, hn, ho]
          exact ⟨List.chain'_singleton _, by simp⟩
        | ok newOrderJ =>
          have hnum := numMatched_cons_some changes d rest changeJ hm
          have hle' : (count + 1) + numMatched changes rest ≤ total := by omega
          have hk : count + 1 ≤ total := by omega
          have ih' := ih (count + 1) (applyChange now newNameJ newOrderJ d docsDb) hle'
          simp only [applyChangesLoop, hm, hn, ho]
          rcases hX : applyChangesLoop changes now total base rest (count + 1)
              (applyChange now newNameJ newOrderJ d docsDb) with ⟨ws, c3, db3, err⟩
          rw [hX] at ih'
          constructor
          · refine List.chain'_cons.mpr ⟨?_, ?_⟩
            · exact Nat.add_le_add_left
                (Nat.div_le_div_right (Nat.mul_le_mul_right 50 (Nat.le_succ count))) 25
            · exact ih'.1
          · intro w hw
            rcases List.mem_cons.mp hw with h | h
            · subst h
              exact ⟨progress_write_le (count + 1) total hk, rfl⟩
            · exact ih'.2 w h

/-- C5: over every execution of the reorder job and of the changes job, the
sequence of progress values written to the task record is non-decreasing,
stays within 0 and 100, and a write of progress 100 always carries status
completed. -/
theorem c5_progress_monotone_bounded :
    (∀ (apiKey : Option Str) (response : Except Str Str) (now : Int)
        (pid tid : Str) (docs : List Doc),
        traceOk ((processDocumentReordering apiKey response now pid tid docs).1) = true) ∧
    (∀ (changes : List (Str × Json)) (documents : List Doc) (now : Int)
        (pid tid : Str) (docsDb : List Doc),
        traceOk ((processDocumentChanges changes documents now pid tid docsDb).1) = true) := by
  constructor
  · intro apiKey response now pid tid docs
    unfold processDocumentReordering
    repeat' split
    all_goals rfl
  · intro changes documents now pid tid docsDb
    have hle : 0 + numMatched changes documents ≤ documents.length := by
      simpa [numMatched] using
        List.length_filter_le (fun d => (lookupChange changes d.id).isSome) documents
    have hlp := applyChangesLoop_trace changes now documents.length
      { task_id := tid, project_id := pid,
        status := TaskStatus.processing, progress := 25 }
      documents 0 docsDb hle
    unfold processDocumentChanges
    dsimp only
    split
    next ws count db2 heq =>
      rw [heq] at hlp
      unfold traceOk
      simp only [Bool.and_eq_true]
      refine ⟨⟨?_, ?_⟩, ?_⟩
      · rw [progressMono_iff]
        simp only [List.map_cons, List.map_append, List.map_nil]
        refine List.chain'_cons.mpr ⟨by norm_num, ?_⟩
        rw [← List.cons_append]
        refine List.chain'_append.mpr ⟨?_, ?_, ?_⟩
        · simpa using hlp.1
        · exact List.chain'_cons.mpr ⟨by norm_num, List.chain'_singleton _⟩
        · intro x hx y hy
          simp only [List.head?_cons, Option.mem_def, Option.some.injEq] at hy
          subst hy
          rw [Option.mem_def] at hx
          rcases getLast?_cons_mem 25 (ws.map fun t => t.progress) x hx with h | h
          · omega
          · rcases List.mem_map.mp h with ⟨w, hw, hwp⟩
            have hb := (hlp.2 w hw).1
            omega
      · rw [List.all_eq_true]
        intro t ht
        simp only [List.mem_cons, List.mem_append, List.not_mem_nil, or_false] at ht
        rcases ht with rfl | rfl | ht | rfl | rfl
        · rfl
        · rfl
        · have hb := (hlp.2 t ht).1
          simp only [decide_eq_true_eq]
          omega
        · rfl
        · rfl
      · rw [List.all_eq_true]
        intro t ht
        simp only [List.mem_cons, List.mem_append, List.not_mem_nil, or_false] at ht
        rcases ht with rfl | rfl | ht | rfl | rfl
        · rfl
        · rfl
        · have hb := (hlp.2 t ht).1
          simp only [decide_eq_true_eq]
          intro h100
          exact absurd h100 (by omega)
        · rfl
        · rfl
    next ws count db2 msg heq =>
      rw [heq] at hlp
      have hgl := getLast?_cons_map_progress
        { task_id := tid, project_id := pid,
          status := TaskStatus.processing, progress := 25 } ws
      dsimp only at hgl
      have hlast : (ws.getLastD
          { task_id := tid, project_id := pid,
            status := TaskStatus.processing, progress := 25 }).progress ≤ 75 := by
        rcases getLastD_cases ws
            { task_id := tid, project_id := pid,
              status := TaskStatus.processing, progress := 25 } with h | h
        · rw [h]
          norm_num
        · exact (hlp.2 _ h).1
      unfold traceOk
      simp only [Bool.and_eq_true]
      refine ⟨⟨?_, ?_⟩, ?_⟩
      · rw [progressMono_iff]
        simp only [List.map_cons, List.map_append, List.map_nil]
        refine List.chain'_cons.mpr ⟨by norm_num, ?_⟩
        rw [← List.cons_append]
        refine List.chain'_append.mpr ⟨?_, ?_, ?_⟩
        · simpa using hlp.1
        · exact List.chain'_singleton _
        · intro x hx y hy
          simp only [List.head?_cons, Option.mem_def, Option.some.injEq] at hy
          subst hy
          rw [Option.mem_def] at hx
          rw [hgl] at hx
          have hx2 := (Option.some.injEq _ _).mp hx
          omega
      · rw [List.all_eq_true]
        intro t ht
        simp only [List.mem_cons, List.mem_append, List.not_mem_nil, or_false] at ht
        rcases ht with rfl | rfl | ht | rfl
        · rfl
        · rfl
        · have hb := (hlp.2 t ht).1
          simp only [decide_eq_true_eq]
          omega
        · simp only [decide_eq_true_eq]
          omega
      · rw [List.all_eq_true]
        intro t ht
        simp only [List.mem_cons, List.mem_append, List.not_mem_nil, or_false] at ht
        rcases ht with rfl | rfl | ht | rfl
        · rfl
        · rfl
        · have hb := (hlp.2 t ht).1
          simp only [decide_eq_true_eq]
          intro h100
          exact absurd h100 (by omega)
        · simp only [decide_eq_true_eq]
          intro h100
          exact absurd h100 (by omega)
